/-
  Verification of the Raspi-Router inspection-line control core.

  Shallow embedding of the Python sources:
    - src/core/controller.py   (InspectionController: process_piece,
      _has_imperfections, run_state_machine, _calculate_solenoid_state,
      _handle_piece_processing)
    - src/config/settings.py   (EJECTION_THRESHOLDS, SOLENOID_SETTINGS,
      SENSOR2_WAIT_TIME, NETWORK_CHECK_INTERVAL)
    - src/core/hardware.py     (GPIOController.cleanup)
    - src/main.py              (InspectionSystem.run / cleanup)
    - src/core/network.py      (NetworkManager._check_endpoint, _update_history)
    - src/src/imaging/cache.py (ImageCache.get / put)
    - src/core/processing.py   (ImageProcessor._process_predictions and helpers)

  Times are modelled as natural numbers of milliseconds (cache times in
  seconds); the Python code uses float seconds, and every comparison in the
  code is of the form (now - t0) * 1000 OP threshold, which is equivalent to
  the additive natural-number form used here.  Confidences and areas are
  modelled by rationals.
-/
import Mathlib

namespace RaspiRouter

/-! ## Configuration constants (src/config/settings.py) -/

/-- SENSOR2_WAIT_TIME = 0.5 seconds, expressed in milliseconds. -/
def SENSOR2_WAIT_MS : ℕ := 500

/-- NETWORK_CHECK_INTERVAL = 5 seconds, expressed in milliseconds. -/
def NETWORK_CHECK_INTERVAL_MS : ℕ := 5000

/-- SOLENOID_SETTINGS['DELAY_MS'] — solenoid hold-open delay. -/
def DELAY_MS : ℕ := 500

/-- SOLENOID_SETTINGS['START_DELAY_MS'] — solenoid activation debounce. -/
def START_DELAY_MS : ℕ := 300

/-- SOLENOID_SETTINGS['EJECTION_TIME_MS'] — ejector assertion duration. -/
def EJECTION_TIME_MS : ℕ := 500

/-- SOLENOID_SETTINGS['POST_EJECTION_DELAY_MS'] — settle delay after ejection. -/
def POST_EJECTION_DELAY_MS : ℕ := 500

/-! ## Ejection thresholds and prediction data (EJECTION_THRESHOLDS, results dicts) -/

/-- EJECTION_THRESHOLDS from src/config/settings.py (same literal values are
repeated in src/main.py's InspectionSystem.__init__). -/
structure Thresholds where
  confidenceMin : ℚ
  areaMax : ℚ
  criticalCount : ℕ
  majorCount : ℕ
  totalDefects : ℕ
deriving DecidableEq, Repr

/-- The shipped threshold values: confidence_min 0.01, area_max 0.0001,
critical_count 0, major_count 0, total_defects 1. -/
def shippedThresholds : Thresholds :=
  { confidenceMin := 1/100
    areaMax := 1/10000
    criticalCount := 0
    majorCount := 0
    totalDefects := 1 }

/-- Severity buckets produced by ImageProcessor._estimate_severity. -/
inductive Severity where
  | critical
  | major
  | minor
  | negligible
deriving DecidableEq, Repr

/-- One processed prediction as consumed by _has_imperfections: the fields it
reads are pred['confidence'], pred['metadata']['area'],
pred['metadata']['severity'] and pred['class_name']. -/
structure ProcPred where
  className : String
  confidence : ℚ
  area : ℚ
  severity : Severity
deriving DecidableEq, Repr

/-- The summary['severity_counts'] dict.  The processing pipeline only ever
produces the four severity keys below, so the dict is modelled by one counter
per key; sum(severity_counts.values()) is the sum of the four fields. -/
structure SeverityCounts where
  critical : ℕ
  major : ℕ
  minor : ℕ
  negligible : ℕ
deriving DecidableEq, Repr

/-- Sum of all severity_counts values. -/
def SeverityCounts.total (c : SeverityCounts) : ℕ :=
  c.critical + c.major + c.minor + c.negligible

/-- A results dict that contains a 'predictions' key: the predictions list and
the summary severity counts. -/
structure Results where
  predictions : List ProcPred
  counts : SeverityCounts
deriving DecidableEq, Repr

/-- A truthy results dict as seen by _has_imperfections: it either lacks the
'predictions' key or carries a predictions list and summary. -/
inductive ResultsDict where
  | missingPredictions
  | withPredictions (r : Results)
deriving DecidableEq, Repr

/-- InspectionController._has_imperfections (src/core/controller.py lines
101-170; textually identical to the second, shadowing definition in
src/main.py lines 233-308).  `none` models a falsy `results` value; the
function returns True when `not results or 'predictions' not in results`.
The per-prediction loop returns True as soon as confidence is strictly above
confidence_min or area is strictly above area_max; then critical/major counts
are compared strictly and the total with ≥. -/
def hasImperfections (rd : Option ResultsDict) (T : Thresholds) : Bool :=
  match rd with
  | none => true
  | some ResultsDict.missingPredictions => true
  | some (ResultsDict.withPredictions r) =>
    if r.predictions.any (fun p => T.confidenceMin < p.confidence || T.areaMax < p.area) then
      true
    else if T.criticalCount < r.counts.critical then
      true
    else if T.majorCount < r.counts.major then
      true
    else if T.totalDefects ≤ r.counts.total then
      true
    else
      false

/-- Modelled from the spec's words for claim C3 (the refinement target, not
source code): eject iff some single prediction has confidence ≥ confidence_min
AND area ≥ area_max simultaneously, or severity_counts[critical] ≥
critical_count, or severity_counts[major] ≥ major_count, or the total of the
severity counts ≥ total_defects_min. -/
def specDecide (r : Results) (T : Thresholds) : Bool :=
  r.predictions.any (fun p => T.confidenceMin ≤ p.confidence && T.areaMax ≤ p.area)
    || T.criticalCount ≤ r.counts.critical
    || T.majorCount ≤ r.counts.major
    || T.totalDefects ≤ r.counts.total

/-- An empty results structure: predictions list present but empty, all
severity counts zero (exactly what the pipeline produces for a clean piece). -/
def emptyResults : Results :=
  { predictions := []
    counts := { critical := 0, major := 0, minor := 0, negligible := 0 } }

/-- C3 counterexample: on the empty prediction set with the shipped
thresholds, the decision rule stated in the claim ejects (because
severity_counts[critical] = 0 ≥ critical_count = 0), while the code's
_has_imperfections passes the piece.  Hence the claimed iff is false. -/
theorem ejection_policy_spec_mismatch_cex :
    hasImperfections (some (ResultsDict.withPredictions emptyResults)) shippedThresholds = false
      ∧ specDecide emptyResults shippedThresholds = true := by
  constructor
  · decide
  · decide

/-- C3 (amended): given a results dict with a predictions key,
_has_imperfections returns true iff some single prediction has confidence
strictly above confidence_min OR area strictly above area_max, or
severity_counts[critical] strictly exceeds critical_count, or
severity_counts[major] strictly exceeds major_count, or the sum of all
severity counts is at least total_defects. -/
theorem hasImperfections_characterization (r : Results) (T : Thresholds) :
    hasImperfections (some (ResultsDict.withPredictions r)) T = true ↔
      ((∃ p ∈ r.predictions, T.confidenceMin < p.confidence ∨ T.areaMax < p.area)
        ∨ T.criticalCount < r.counts.critical
        ∨ T.majorCount < r.counts.major
        ∨ T.totalDefects ≤ r.counts.total) := by
  simp only [hasImperfections]
  by_cases hany :
      r.predictions.any (fun p => T.confidenceMin < p.confidence || T.areaMax < p.area) = true
  · simp only [hany, if_true, true_iff]
    left
    rcases List.any_eq_true.mp hany with ⟨p, hp, hcond⟩
    exact ⟨p, hp, by simpa using hcond⟩
  · simp only [hany, if_false]
    have hno : ¬ ∃ p ∈ r.predictions, T.confidenceMin < p.confidence ∨ T.areaMax < p.area := by
      intro ⟨p, hp, hcond⟩
      exact hany (List.any_eq_true.mpr ⟨p, hp, by simpa using hcond⟩)
    constructor
    · intro h
      right
      by_cases h1 : T.criticalCount < r.counts.critical
      · exact Or.inl h1
      right
      by_cases h2 : T.majorCount < r.counts.major
      · exact Or.inl h2
      right
      by_cases h3 : T.totalDefects ≤ r.counts.total
      · exact h3
      · simp [h1, h2, h3] at h
    · intro h
      rcases h with h | h1 | h2 | h3
      · exact absurd h hno
      · simp [h1]
      · simp [h2]
      · by_cases h1 : T.criticalCount < r.counts.critical
        · simp [h1]
        by_cases h2 : T.majorCount < r.counts.major
        · simp [h2]
        simp [h1, h2, h3]

/-! ## Image pipeline prediction normalization (src/core/processing.py) -/

/-- ImageProcessor.CONFIDENCE_THRESHOLDS['high'] = 0.85. -/
def CONFIDENCE_HIGH : ℚ := 17/20

/-- ImageProcessor.CONFIDENCE_THRESHOLDS['medium'] = 0.65. -/
def CONFIDENCE_MEDIUM : ℚ := 13/20

/-- ImageProcessor.CONFIDENCE_THRESHOLDS['low'] = 0.50. -/
def CONFIDENCE_LOW : ℚ := 1/2

/-- One raw prediction from the inference response, with the fields
_process_predictions reads: confidence, bbox = [x1, y1, x2, y2] (already
normalized) and class_name. -/
structure RawPred where
  className : String
  confidence : ℚ
  x1 : ℚ
  y1 : ℚ
  x2 : ℚ
  y2 : ℚ
deriving DecidableEq, Repr

/-- ImageProcessor._calculate_bbox_area: width * height of the normalized
bounding box. -/
def bboxArea (p : RawPred) : ℚ :=
  (p.x2 - p.x1) * (p.y2 - p.y1)

/-- ImageProcessor._estimate_severity: a fixed (confidence, area) lookup. -/
def estimateSeverity (confidence : ℚ) (area : ℚ) : Severity :=
  if CONFIDENCE_HIGH ≤ confidence then
    if 1/10 < area then Severity.critical
    else if 1/20 < area then Severity.major
    else Severity.minor
  else if CONFIDENCE_MEDIUM ≤ confidence then
    if 1/10 < area then Severity.major
    else Severity.minor
  else Severity.negligible

/-- The processed form of one kept prediction (the fields consumed
downstream by _has_imperfections). -/
def processPred (p : RawPred) : ProcPred :=
  { className := p.className
    confidence := p.confidence
    area := bboxArea p
    severity := estimateSeverity p.confidence (bboxArea p) }

/-- Descending insertion by confidence, modelling
`processed_preds.sort(key=lambda x: x['confidence'], reverse=True)`. -/
def insertByConf (p : ProcPred) : List ProcPred → List ProcPred
  | [] => [p]
  | q :: qs => if q.confidence ≤ p.confidence then p :: q :: qs else q :: insertByConf p qs

/-- Sort a processed-prediction list by descending confidence. -/
def sortByConfDesc (l : List ProcPred) : List ProcPred :=
  l.foldr insertByConf []

/-- All-zero severity counts (the summary of an empty prediction list). -/
def zeroCounts : SeverityCounts :=
  { critical := 0, major := 0, minor := 0, negligible := 0 }

/-- ImageProcessor._summarize_predictions restricted to the severity_counts
field: one counter per severity bucket occurring in the list. -/
def summarize (l : List ProcPred) : SeverityCounts :=
  { critical := l.countP (fun p => decide (p.severity = Severity.critical))
    major := l.countP (fun p => decide (p.severity = Severity.major))
    minor := l.countP (fun p => decide (p.severity = Severity.minor))
    negligible := l.countP (fun p => decide (p.severity = Severity.negligible)) }

/-- ImageProcessor._process_predictions (src/core/processing.py lines
210-293): an early return produces the empty structure when no raw
predictions arrived; otherwise every raw prediction with confidence strictly
below CONFIDENCE_THRESHOLDS['low'] is skipped, the survivors are normalized
and sorted by descending confidence, and the summary is derived from the
survivors only. -/
def processPredictions (raw : List RawPred) : Results :=
  if raw.isEmpty then
    { predictions := [], counts := zeroCounts }
  else
    let kept := raw.filter (fun p => !decide (p.confidence < CONFIDENCE_LOW))
    let procs := sortByConfDesc (kept.map processPred)
    { predictions := procs, counts := summarize procs }

/-- Membership in an insertion step is membership in the inserted element or
the base list. -/
theorem mem_insertByConf (a p : ProcPred) (l : List ProcPred) :
    a ∈ insertByConf p l ↔ a = p ∨ a ∈ l := by
  induction l with
  | nil => simp [insertByConf]
  | cons q qs ih =>
    by_cases h : q.confidence ≤ p.confidence
    · simp [insertByConf, h]
    · simp only [insertByConf, if_neg h, List.mem_cons, ih]
      tauto

/-- Sorting by confidence does not change membership. -/
theorem mem_sortByConfDesc (a : ProcPred) (l : List ProcPred) :
    a ∈ sortByConfDesc l ↔ a ∈ l := by
  induction l with
  | nil => simp [sortByConfDesc]
  | cons q qs ih =>
    simp only [sortByConfDesc, List.foldr_cons, mem_insertByConf, List.mem_cons]
    rw [show List.foldr insertByConf [] qs = sortByConfDesc qs from rfl] at *
    rw [ih]

/-- The severity counters of a summary always total the list length, because
every kept prediction falls in exactly one severity bucket. -/
theorem summarize_total (l : List ProcPred) :
    (summarize l).total = l.length := by
  induction l with
  | nil => rfl
  | cons p ps ih =>
    simp only [summarize, SeverityCounts.total] at ih
    cases hsev : p.severity <;>
      simp [summarize, SeverityCounts.total, List.countP_cons, hsev] <;>
      omega

/-- C10 (confirmed): _process_predictions silently drops every raw prediction
with confidence below the fixed 0.50 low-confidence threshold: every
prediction in its output has confidence ≥ 0.50, the summary severity counts
total exactly the kept predictions, and a single detection with confidence in
[0.01, 0.50) produces an empty prediction set on which _has_imperfections
(with the shipped thresholds) does not eject. -/
theorem low_confidence_predictions_dropped :
    (∀ raw : List RawPred, ∀ p ∈ (processPredictions raw).predictions,
        CONFIDENCE_LOW ≤ p.confidence)
    ∧ (∀ raw : List RawPred,
        (processPredictions raw).counts.total = (processPredictions raw).predictions.length)
    ∧ (∀ (name : String) (c a1 b1 a2 b2 : ℚ), 1/100 ≤ c → c < 1/2 →
        (processPredictions [⟨name, c, a1, b1, a2, b2⟩]).predictions = []
        ∧ hasImperfections
            (some (ResultsDict.withPredictions (processPredictions [⟨name, c, a1, b1, a2, b2⟩])))
            shippedThresholds = false) := by
  refine ⟨?_, ?_, ?_⟩
  · intro raw p hp
    unfold processPredictions at hp
    split at hp
    · simp at hp
    · rw [mem_sortByConfDesc] at hp
      rcases List.mem_map.mp hp with ⟨q, hq, rfl⟩
      have := List.of_mem_filter hq
      simp only [Bool.not_eq_true', decide_eq_false_iff_not, not_lt] at this
      simpa [processPred] using this
  · intro raw
    unfold processPredictions
    split
    · simp [zeroCounts, SeverityCounts.total]
    · exact summarize_total _
  · intro name c a1 b1 a2 b2 _ hc2
    have hc2i : c < (2 : ℚ)⁻¹ := by
      rw [show ((2 : ℚ)⁻¹ = 1/2) from (one_div (2 : ℚ)).symm]
      exact hc2
    have hfilter :
        List.filter (fun p => !decide (p.confidence < CONFIDENCE_LOW))
          [(⟨name, c, a1, b1, a2, b2⟩ : RawPred)] = [] := by
      simp [List.filter, CONFIDENCE_LOW, hc2, hc2i]
    have hempty : (processPredictions [⟨name, c, a1, b1, a2, b2⟩]).predictions = [] := by
      simp [processPredictions, hfilter, sortByConfDesc]
    have hcounts : (processPredictions [⟨name, c, a1, b1, a2, b2⟩]).counts = zeroCounts := by
      simp [processPredictions, hfilter, sortByConfDesc, summarize, zeroCounts]
    refine ⟨hempty, ?_⟩
    simp [hasImperfections, hempty, hcounts, zeroCounts, SeverityCounts.total,
      shippedThresholds]

/-- Concrete instance of the dropped-prediction behavior for a detection with
confidence 0.25 ∈ [0.01, 0.50). -/
theorem low_confidence_predictions_dropped_witness :
    (processPredictions [⟨"knot", 1/4, 0, 0, 1, 1⟩]).predictions = []
    ∧ hasImperfections
        (some (ResultsDict.withPredictions (processPredictions [⟨"knot", 1/4, 0, 0, 1, 1⟩])))
        shippedThresholds = false :=
  low_confidence_predictions_dropped.2.2 "knot" (1/4) 0 0 1 1 (by norm_num) (by norm_num)

/-! ## Image cache (src/src/imaging/cache.py, class ImageCache) -/

/-- One cache entry: the Python dict maps a key to (data, timestamp, size);
the stored size is len(data) at insertion and data is never mutated, so size
is represented by `data.length`.  Timestamps are seconds as naturals. -/
structure CacheEntry where
  key : String
  data : List ℕ
  timestamp : ℕ
deriving DecidableEq, Repr

/-- ImageCache state: max_size (bytes), max_age (seconds), the insertion-
ordered entry dict, and the incrementally maintained current_size. -/
structure ImageCache where
  maxSize : ℕ
  maxAge : ℕ
  cache : List CacheEntry
  currentSize : ℕ
deriving DecidableEq, Repr

/-- The Python dict has pairwise distinct keys. -/
def keysNodup (c : ImageCache) : Prop :=
  (c.cache.map (fun e => e.key)).Nodup

/-- ImageCache._clean_expired: drop every entry with
(now - timestamp).total_seconds() > max_age, decrementing current_size by each
removed entry's size. -/
def cleanExpired (now : ℕ) (c : ImageCache) : ImageCache :=
  { c with
    cache := c.cache.filter (fun e => !decide (c.maxAge < now - e.timestamp))
    currentSize := c.currentSize -
      ((c.cache.filter (fun e => decide (c.maxAge < now - e.timestamp))).map
        (fun e => e.data.length)).sum }

/-- ImageCache._remove_entry: if the key is present, delete it and decrement
current_size by its stored size. -/
def removeEntry (k : String) (c : ImageCache) : ImageCache :=
  match c.cache.find? (fun e => e.key == k) with
  | none => c
  | some e =>
    { c with
      cache := c.cache.eraseP (fun f => f.key == k)
      currentSize := c.currentSize - e.data.length }

/-- Ascending insertion by timestamp, modelling
`sorted(self.cache.items(), key=lambda x: x[1][1])`. -/
def insertByTime (e : CacheEntry) : List CacheEntry → List CacheEntry
  | [] => [e]
  | f :: fs => if e.timestamp ≤ f.timestamp then e :: f :: fs else f :: insertByTime e fs

/-- Sort cache entries by ascending timestamp (oldest first). -/
def sortByTime (l : List CacheEntry) : List CacheEntry :=
  l.foldr insertByTime []

/-- The while-loop of ImageCache._make_space over the oldest-first key list:
remove entries until the new entry fits or no candidates remain. -/
def makeSpaceAux (needed : ℕ) : List String → ImageCache → ImageCache
  | [], c => c
  | k :: ks, c =>
    if c.maxSize < c.currentSize + needed then makeSpaceAux needed ks (removeEntry k c)
    else c

/-- ImageCache._make_space: evict oldest-first until the entry fits. -/
def makeSpace (needed : ℕ) (c : ImageCache) : ImageCache :=
  makeSpaceAux needed ((sortByTime c.cache).map (fun e => e.key)) c

/-- ImageCache.get: purge expired entries, then return the entry's data if
present and not expired (removing it if present but expired). -/
def cacheGet (k : String) (now : ℕ) (c : ImageCache) : Option (List ℕ) × ImageCache :=
  match (cleanExpired now c).cache.find? (fun e => e.key == k) with
  | some e =>
    if now - e.timestamp ≤ (cleanExpired now c).maxAge then (some e.data, cleanExpired now c)
    else (none, removeEntry k (cleanExpired now c))
  | none => (none, cleanExpired now c)

/-- ImageCache.put: purge expired entries; reject an entry larger than the
whole capacity; evict oldest-first until it fits; replace any existing entry
for the key; insert with the current timestamp. -/
def cachePut (k : String) (data : List ℕ) (now : ℕ) (c : ImageCache) : ImageCache :=
  let c1 := cleanExpired now c
  if c1.maxSize < data.length then c1
  else
    let c2 := makeSpace data.length c1
    let c3 := if (c2.cache.find? (fun e => e.key == k)).isSome then removeEntry k c2 else c2
    { c3 with
      cache := c3.cache ++ [⟨k, data, now⟩]
      currentSize := c3.currentSize + data.length }

/-- Cleaning preserves the configured limits. -/
theorem cleanExpired_maxSize (now : ℕ) (c : ImageCache) :
    (cleanExpired now c).maxSize = c.maxSize := rfl

/-- Cleaning preserves the configured age limit. -/
theorem cleanExpired_maxAge (now : ℕ) (c : ImageCache) :
    (cleanExpired now c).maxAge = c.maxAge := rfl

/-- Entry removal preserves the configured limits. -/
theorem removeEntry_maxSize (k : String) (c : ImageCache) :
    (removeEntry k c).maxSize = c.maxSize := by
  unfold removeEntry
  split <;> rfl

/-- Entry removal preserves the configured age limit. -/
theorem removeEntry_maxAge (k : String) (c : ImageCache) :
    (removeEntry k c).maxAge = c.maxAge := by
  unfold removeEntry
  split <;> rfl

/-- Entry removal only deletes entries. -/
theorem removeEntry_sublist (k : String) (c : ImageCache) :
    List.Sublist (removeEntry k c).cache c.cache := by
  unfold removeEntry
  split
  · exact List.Sublist.refl _
  · exact List.eraseP_sublist _

/-- The eviction loop preserves the configured limits. -/
theorem makeSpaceAux_maxSize (needed : ℕ) (ks : List String) :
    ∀ c : ImageCache, (makeSpaceAux needed ks c).maxSize = c.maxSize := by
  induction ks with
  | nil => intro c; rfl
  | cons k ks ih =>
    intro c
    unfold makeSpaceAux
    split
    · rw [ih, removeEntry_maxSize]
    · rfl

/-- The eviction loop preserves the configured age limit. -/
theorem makeSpaceAux_maxAge (needed : ℕ) (ks : List String) :
    ∀ c : ImageCache, (makeSpaceAux needed ks c).maxAge = c.maxAge := by
  induction ks with
  | nil => intro c; rfl
  | cons k ks ih =>
    intro c
    unfold makeSpaceAux
    split
    · rw [ih, removeEntry_maxAge]
    · rfl

/-- The eviction loop only deletes entries. -/
theorem makeSpaceAux_sublist (needed : ℕ) (ks : List String) :
    ∀ c : ImageCache, List.Sublist (makeSpaceAux needed ks c).cache c.cache := by
  induction ks with
  | nil => intro c; exact List.Sublist.refl _
  | cons k ks ih =>
    intro c
    unfold makeSpaceAux
    split
    · exact (ih (removeEntry k c)).trans (removeEntry_sublist k c)
    · exact List.Sublist.refl _

/-- Key-uniqueness survives any entry-deleting operation. -/
theorem keysNodup_of_sublist {l1 l2 : List CacheEntry}
    (h : List.Sublist l1 l2) (hn : (l2.map (fun e => e.key)).Nodup) :
    (l1.map (fun e => e.key)).Nodup :=
  hn.sublist (h.map _)

/-- Erasing key k from a dup-free entry list leaves no entry with key k. -/
theorem eraseP_key_clears (k : String) :
    ∀ l : List CacheEntry, (l.map (fun e => e.key)).Nodup →
      ∀ e ∈ l.eraseP (fun f => f.key == k), e.key ≠ k := by
  intro l
  induction l with
  | nil => simp [List.eraseP]
  | cons a as ih =>
    intro hnd e he
    simp only [List.map_cons, List.nodup_cons] at hnd
    by_cases ha : (a.key == k) = true
    · rw [List.eraseP_cons, ha] at he
      simp only [cond_true] at he
      intro hek
      have hak : a.key = k := by simpa using ha
      exact hnd.1 (by
        rw [hak, ← hek]
        exact List.mem_map.mpr ⟨e, he, rfl⟩)
    · have hafalse : (a.key == k) = false := by simpa using ha
      rw [List.eraseP_cons, hafalse] at he
      simp only [cond_false, List.mem_cons] at he
      rcases he with rfl | he
      · simpa using ha
      · exact ih hnd.2 e he

/-- In a dup-free entry list the entry holding a given key is unique. -/
theorem nodup_key_unique {l : List CacheEntry}
    (hnd : (l.map (fun e => e.key)).Nodup) {e1 e2 : CacheEntry}
    (h1 : e1 ∈ l) (h2 : e2 ∈ l) (hk : e1.key = e2.key) : e1 = e2 :=
  List.inj_on_of_nodup_map hnd h1 h2 hk

/-- After a put, every other surviving entry carries a different key. -/
theorem cachePut_other_keys (k : String) (data : List ℕ) (now : ℕ)
    (c : ImageCache) (hnd : keysNodup c)
    (_hsz : ¬ (cleanExpired now c).maxSize < data.length) :
    ∀ e ∈ (if ((makeSpace data.length (cleanExpired now c)).cache.find?
              (fun e => e.key == k)).isSome
            then removeEntry k (makeSpace data.length (cleanExpired now c))
            else makeSpace data.length (cleanExpired now c)).cache,
      e.key ≠ k := by
  set c1 := cleanExpired now c with hc1
  set c2 := makeSpace data.length c1 with hc2
  have hnd1 : (c1.cache.map (fun e => e.key)).Nodup :=
    keysNodup_of_sublist (List.filter_sublist _) hnd
  have hnd2 : (c2.cache.map (fun e => e.key)).Nodup :=
    keysNodup_of_sublist (makeSpaceAux_sublist _ _ _) hnd1
  by_cases hfind : (c2.cache.find? (fun e => e.key == k)).isSome
  · rw [if_pos hfind]
    intro e he
    unfold removeEntry at he
    rcases hsome : c2.cache.find? (fun e => e.key == k) with _ | f
    · rw [hsome] at he
      have := List.find?_eq_none.mp hsome e he
      simpa using this
    · rw [hsome] at he
      exact eraseP_key_clears k c2.cache hnd2 e he
  · rw [if_neg hfind]
    intro e he
    rcases hsome : c2.cache.find? (fun e => e.key == k) with _ | f
    · have := List.find?_eq_none.mp hsome e he
      simpa using this
    · rw [hsome] at hfind
      simp at hfind

/-- C8 (confirmed): putting b under key k and getting k at the same instant
returns b whenever b is smaller than the capacity; and once strictly more
than max_age seconds have elapsed since an entry's insertion, get returns
None for its key. -/
theorem cache_roundtrip_and_expiry :
    (∀ (c : ImageCache) (k : String) (b : List ℕ) (now : ℕ),
      keysNodup c → b.length < c.maxSize →
      (cacheGet k now (cachePut k b now c)).1 = some b)
    ∧ (∀ (c : ImageCache) (k : String) (e : CacheEntry) (now : ℕ),
      keysNodup c → e ∈ c.cache → e.key = k → c.maxAge < now - e.timestamp →
      (cacheGet k now c).1 = none) := by
  constructor
  · intro c k b now hnd hcap
    have hsz : ¬ (cleanExpired now c).maxSize < b.length := by
      rw [cleanExpired_maxSize]
      omega
    have hother := cachePut_other_keys k b now c hnd hsz
    unfold cachePut
    rw [if_neg hsz]
    set c3 := (if ((makeSpace b.length (cleanExpired now c)).cache.find?
                  (fun e => e.key == k)).isSome
                then removeEntry k (makeSpace b.length (cleanExpired now c))
                else makeSpace b.length (cleanExpired now c)) with hc3
    have hmaxAge3 : c3.maxAge = c.maxAge := by
      rw [hc3]
      split
      · rw [removeEntry_maxAge]
        unfold makeSpace
        rw [makeSpaceAux_maxAge, cleanExpired_maxAge]
      · unfold makeSpace
        rw [makeSpaceAux_maxAge, cleanExpired_maxAge]
    set c4 : ImageCache :=
      { c3 with
        cache := c3.cache ++ [⟨k, b, now⟩]
        currentSize := c3.currentSize + b.length } with hc4
    have hfilter :
        (cleanExpired now c4).cache
          = c4.cache.filter (fun e => !decide (c4.maxAge < now - e.timestamp)) := rfl
    have hnewkeep : (!decide (c4.maxAge < now - now)) = true := by
      simp
    have hcache5 :
        (cleanExpired now c4).cache
          = c3.cache.filter (fun e => !decide (c4.maxAge < now - e.timestamp))
            ++ [⟨k, b, now⟩] := by
      rw [hfilter]
      show (c3.cache ++ [(⟨k, b, now⟩ : CacheEntry)]).filter _ = _
      rw [List.filter_append]
      congr 1
      simp
    have hfindnew :
        (cleanExpired now c4).cache.find? (fun e => e.key == k)
          = some ⟨k, b, now⟩ := by
      rw [hcache5, List.find?_append]
      have hleft :
          (c3.cache.filter (fun e => !decide (c4.maxAge < now - e.timestamp))).find?
            (fun e => e.key == k) = none := by
        apply List.find?_eq_none.mpr
        intro e he
        have hin : e ∈ c3.cache := List.mem_of_mem_filter he
        have := hother e hin
        simpa using this
      rw [hleft]
      simp [List.find?]
    unfold cacheGet
    rw [hfindnew]
    have : now - (⟨k, b, now⟩ : CacheEntry).timestamp ≤ (cleanExpired now c4).maxAge := by
      simp
    simp [this]
  · intro c k e now hnd hmem hkey hexp
    have hfind : (cleanExpired now c).cache.find? (fun f => f.key == k) = none := by
      apply List.find?_eq_none.mpr
      intro f hf hbeq
      have hfc : f ∈ c.cache := List.mem_of_mem_filter hf
      have hfk : f.key = k := by simpa using hbeq
      have hfe : f = e := nodup_key_unique hnd hfc hmem (by rw [hfk, hkey])
      have hkeep := List.of_mem_filter hf
      rw [hfe] at hkeep
      simp only [Bool.not_eq_true', decide_eq_false_iff_not] at hkeep
      exact hkeep hexp
    unfold cacheGet
    rw [hfind]

/-- Concrete cache round-trip and expiry: a 3-byte entry round-trips through
an empty 100-byte cache at time 0, and a 1-byte entry inserted at time 0 in a
cache with max_age 1 is gone at time 5. -/
theorem cache_roundtrip_and_expiry_witness :
    (cacheGet "k" 0 (cachePut "k" [1, 2, 3] 0
        { maxSize := 100, maxAge := 10, cache := [], currentSize := 0 })).1 = some [1, 2, 3]
    ∧ (cacheGet "k" 5
        { maxSize := 100, maxAge := 1,
          cache := [{ key := "k", data := [7], timestamp := 0 }],
          currentSize := 1 }).1 = none := by
  constructor
  · exact cache_roundtrip_and_expiry.1
      { maxSize := 100, maxAge := 10, cache := [], currentSize := 0 } "k" [1, 2, 3] 0
      (by simp [keysNodup]) (by norm_num)
  · exact cache_roundtrip_and_expiry.2
      { maxSize := 100, maxAge := 1,
        cache := [{ key := "k", data := [7], timestamp := 0 }],
        currentSize := 1 } "k" { key := "k", data := [7], timestamp := 0 } 5
      (by simp [keysNodup]) (by simp) rfl (by norm_num)

/-! ## Inspection controller state machine (src/core/controller.py, src/main.py) -/

/-- ui.current_status['state'] takes the values 'normal' and 'error_recovery'. -/
inductive UiState where
  | normal
  | errorRecovery
deriving DecidableEq, Repr

/-- The alert string set on a sensor2 timeout. -/
def noPieceAlert : String := "No piece fell in slot!"

/-- The controller-visible system state: the InspectionSystem fields read and
written by run_state_machine / _handle_piece_processing / process_piece, the
two GPIO outputs, plus bookkeeping for the background processing thread:
threadSpawned models `processing_thread is not None`, threadAlive models
`processing_thread.is_alive()`, and activeTasks counts how many spawned
process_piece tasks have started and not yet finished. -/
structure Sys where
  uiState : UiState
  alert : Option String
  pieceInProgress : Bool
  waitingForSensor2 : Bool
  sensor2CheckTime : ℕ
  lastNetworkCheck : ℕ
  networkCheckCount : ℕ
  processingComplete : Bool
  analysisInProgress : Bool
  solenoidLocked : Bool
  waitWarningShown : Bool
  lastSensor1 : Bool
  solenoidActivationTime : Option ℕ
  solenoidDeactivationTime : Option ℕ
  ejectionInProgress : Bool
  ejectionStartTime : ℕ
  postEjectionDelay : Bool
  postEjectionStartTime : ℕ
  solenoidOut : Bool
  ejectorOut : Bool
  threadSpawned : Bool
  threadAlive : Bool
  activeTasks : ℕ
deriving DecidableEq, Repr

/-- One tick's inputs: the current monotonic time in milliseconds and the
(debounced-at-source) GPIO sensor reads. -/
structure Env where
  now : ℕ
  sensor1 : Bool
  sensor2 : Bool
  aiDisabled : Bool
deriving DecidableEq, Repr

/-- The guarded thread spawn
`if not self.processing_thread or not self.processing_thread.is_alive():
ProcessingThread(...).start()` shared by both spawn sites. -/
def spawnIfDead (s : Sys) : Sys :=
  if !s.threadSpawned || !s.threadAlive then
    { s with threadSpawned := true, threadAlive := true, activeTasks := s.activeTasks + 1 }
  else s

/-- InspectionController._calculate_solenoid_state (controller.py lines
238-251): locked forces off; while sensor1 is high the output requires
start-delay milliseconds since the recorded activation edge; while low it
holds for strictly less than the hold delay since the deactivation edge. -/
def calculateSolenoidState (s : Sys) (sensor1 : Bool) (now : ℕ) : Bool :=
  if s.solenoidLocked then false
  else if sensor1 then
    match s.solenoidActivationTime with
    | some t => decide (t + START_DELAY_MS ≤ now)
    | none => false
  else
    match s.solenoidDeactivationTime with
    | some t => decide (now < t + DELAY_MS)
    | none => false

/-- InspectionController._handle_piece_processing (controller.py lines
253-306): piece detection, AI-toggle bypass, the sensor2 wait window, the
sensor2-timeout alert and the two guarded processing-thread spawn sites. -/
def handlePieceProcessing (s : Sys) (e : Env) : Sys :=
  match s.uiState with
  | UiState.normal =>
    let s1 :=
      if e.sensor1 && !s.pieceInProgress && !s.solenoidLocked then
        { s with pieceInProgress := true, waitingForSensor2 := false, alert := none }
      else s
    if s1.pieceInProgress && !s1.solenoidLocked then
      if !e.sensor1 then
        if e.aiDisabled then
          { s1 with pieceInProgress := false, processingComplete := true }
        else
          let s2 :=
            if !s1.waitingForSensor2 then
              { s1 with waitingForSensor2 := true, sensor2CheckTime := e.now }
            else s1
          if s2.waitingForSensor2 && decide (s2.sensor2CheckTime + SENSOR2_WAIT_MS < e.now) then
            let s3 :=
              if !e.sensor2 then
                { s2 with alert := some noPieceAlert, uiState := UiState.errorRecovery,
                          processingComplete := true, solenoidLocked := false }
              else spawnIfDead s2
            { s3 with pieceInProgress := false, waitingForSensor2 := false }
          else s2
      else s1
    else s1
  | UiState.errorRecovery =>
    if e.sensor1 && !s.solenoidLocked then
      { s with uiState := UiState.normal, pieceInProgress := true,
               waitingForSensor2 := false, alert := none }
    else if e.sensor2 && !s.solenoidLocked then
      let s1 := if !e.aiDisabled then spawnIfDead s else s
      { s1 with uiState := UiState.normal, pieceInProgress := false,
                waitingForSensor2 := false }
    else s

/-- The periodic network check of run_state_machine (controller.py lines
197-200): strictly more than the interval since the last check runs
check_all (counted) and stamps last_network_check. -/
def networkTick (s : Sys) (e : Env) : Sys :=
  if s.lastNetworkCheck + NETWORK_CHECK_INTERVAL_MS < e.now then
    { s with networkCheckCount := s.networkCheckCount + 1, lastNetworkCheck := e.now }
  else s

/-- The locked-solenoid branch of run_state_machine (controller.py lines
202-212): force the solenoid off and surface the wait warning at most once
per lock episode. -/
def lockedTick (s : Sys) (e : Env) : Sys :=
  let s2 := { s with solenoidOut := false }
  if e.sensor1 && !s2.waitWarningShown then { s2 with waitWarningShown := true } else s2

/-- Sensor1 edge recording and the per-tick solenoid write of
run_state_machine (controller.py lines 214-229). -/
def solenoidTick (s : Sys) (e : Env) : Sys :=
  let sA :=
    if s.lastSensor1 && !e.sensor1 then
      { s with solenoidDeactivationTime := some e.now }
    else s
  let sB :=
    if !sA.lastSensor1 && e.sensor1 then
      { sA with solenoidActivationTime := some e.now }
    else sA
  let sC := { sB with lastSensor1 := e.sensor1 }
  { sC with solenoidOut := calculateSolenoidState sC e.sensor1 e.now }

/-- InspectionController.run_state_machine (controller.py lines 172-236):
ejection-cycle timing first (early return), then post-ejection delay (early
return), the periodic network check, the locked-solenoid branch (early
return), sensor1 edge recording with the per-tick solenoid write, and piece
processing when the previous piece completed. -/
def runStateMachine (s : Sys) (e : Env) : Sys :=
  if s.ejectionInProgress then
    if s.ejectionStartTime + EJECTION_TIME_MS ≤ e.now then
      { s with ejectorOut := false, ejectionInProgress := false,
               postEjectionDelay := true, postEjectionStartTime := e.now }
    else s
  else if s.postEjectionDelay then
    if s.postEjectionStartTime + POST_EJECTION_DELAY_MS ≤ e.now then
      { s with postEjectionDelay := false, processingComplete := true, solenoidLocked := false }
    else s
  else
    let s1 := networkTick s e
    if s1.solenoidLocked then lockedTick s1 e
    else
      let s2 := if !s1.solenoidLocked then solenoidTick s1 e else s1
      if s2.processingComplete then handlePieceProcessing s2 e else s2

/-- InspectionController.process_piece (controller.py lines 22-99), with the
image-capture and image-analysis outcomes passed in as oracles: `img` is the
value of get_image (None and empty bytes are falsy and raise), `ana` is the
value of analyze_image (None is falsy and raises).  The except branch only
records metrics; the finally branch clears analysis_in_progress, marks the
piece complete and unlocks the solenoid unless an ejection cycle started,
and resets the UI state and alert. -/
def processPiece (s : Sys) (now : ℕ) (img : Option (List ℕ)) (ana : Option ResultsDict) : Sys :=
  let s0 := { s with analysisInProgress := true, processingComplete := false,
                     solenoidLocked := true, waitWarningShown := false }
  let body :=
    match img with
    | some (_ :: _) =>
      match ana with
      | some rd =>
        if hasImperfections (some rd) shippedThresholds then
          { s0 with ejectionInProgress := true, ejectionStartTime := now, ejectorOut := true }
        else
          { s0 with processingComplete := true, solenoidLocked := false }
      | none => s0
    | _ => s0
  let fin1 := { body with analysisInProgress := false }
  let fin2 :=
    if !fin1.ejectionInProgress then
      { fin1 with processingComplete := true, solenoidLocked := false }
    else fin1
  { fin2 with uiState := UiState.normal, alert := none }

/-- The InspectionSystem.__init__ state (src/main.py lines 73-104):
processing_complete starts true, no thread exists, everything else idle.
`t0` is the wall-clock value stored into last_network_check. -/
def initSys (t0 : ℕ) : Sys :=
  { uiState := UiState.normal, alert := none, pieceInProgress := false,
    waitingForSensor2 := false, sensor2CheckTime := 0,
    lastNetworkCheck := t0, networkCheckCount := 0,
    processingComplete := true, analysisInProgress := false,
    solenoidLocked := false, waitWarningShown := false, lastSensor1 := false,
    solenoidActivationTime := none, solenoidDeactivationTime := none,
    ejectionInProgress := false, ejectionStartTime := 0,
    postEjectionDelay := false, postEjectionStartTime := 0,
    solenoidOut := false, ejectorOut := false,
    threadSpawned := false, threadAlive := false, activeTasks := 0 }

/-- Interleaving semantics: a step is either one controller tick, an
intermediate mutation by the still-running background task (it may change any
field but never touches the thread bookkeeping), or the background task
finishing (is_alive becomes false).  This over-approximates every real
interleaving of process_piece with the tick loop. -/
inductive Step : Sys → Sys → Prop where
  | tick (s : Sys) (e : Env) : Step s (runStateMachine s e)
  | taskMut (s t : Sys) :
      s.threadAlive = true →
      t.threadSpawned = s.threadSpawned →
      t.threadAlive = s.threadAlive →
      t.activeTasks = s.activeTasks →
      Step s t
  | taskEnd (s t : Sys) :
      s.threadAlive = true →
      t.threadSpawned = s.threadSpawned →
      t.threadAlive = false →
      t.activeTasks = s.activeTasks - 1 →
      Step s t

/-- States reachable from startup. -/
def Reachable (t0 : ℕ) (s : Sys) : Prop :=
  Relation.ReflTransGen Step (initSys t0) s

/-- The mutual-exclusion bookkeeping invariant: the number of running tasks
is one exactly while the last spawned thread is alive, and a live thread is
always the recorded one. -/
def SysInv (s : Sys) : Prop :=
  s.activeTasks = (if s.threadAlive then 1 else 0)
    ∧ (s.threadAlive = true → s.threadSpawned = true)

/-- The guarded spawn preserves the bookkeeping invariant. -/
theorem spawnIfDead_inv (s : Sys) (h : SysInv s) : SysInv (spawnIfDead s) := by
  unfold spawnIfDead
  rcases h with ⟨h1, h2⟩
  by_cases hg : (!s.threadSpawned || !s.threadAlive) = true
  · rw [if_pos hg]
    have halive : s.threadAlive = false := by
      rcases Bool.or_eq_true_iff.mp hg with h | h
    <;> simp only [Bool.not_eq_true'] at h
      · cases ha : s.threadAlive
        · rfl
        · exact absurd (h2 ha) (by simp [h])
      · exact h
    constructor
    · simp only [halive, if_false] at h1
      simp [h1]
    · intro _
      rfl
  · rw [if_neg hg]
    exact ⟨h1, h2⟩

/-- The spawn either leaves the task count unchanged or increments it from
zero with no thread alive beforehand. -/
theorem spawnIfDead_count (s : Sys) (h : SysInv s) :
    (spawnIfDead s).activeTasks = s.activeTasks
      ∨ (s.activeTasks = 0 ∧ s.threadAlive = false
          ∧ (spawnIfDead s).activeTasks = s.activeTasks + 1) := by
  unfold spawnIfDead
  rcases h with ⟨h1, h2⟩
  by_cases hg : (!s.threadSpawned || !s.threadAlive) = true
  · right
    have halive : s.threadAlive = false := by
      rcases Bool.or_eq_true_iff.mp hg with h | h
    <;> simp only [Bool.not_eq_true'] at h
      · cases ha : s.threadAlive
        · rfl
        · exact absurd (h2 ha) (by simp [h])
      · exact h
    rw [if_pos hg]
    refine ⟨?_, halive, rfl⟩
    simpa [halive] using h1
  · left
    rw [if_neg hg]

/-- The bookkeeping invariant only depends on the three thread fields. -/
theorem sysInv_congr (s x : Sys) (hsp : x.threadSpawned = s.threadSpawned)
    (hal : x.threadAlive = s.threadAlive) (hac : x.activeTasks = s.activeTasks)
    (h : SysInv s) : SysInv x := by
  rcases h with ⟨h1, h2⟩
  constructor
  · rw [hac, hal]
    exact h1
  · intro hx
    rw [hsp]
    exact h2 (hal ▸ hx)

/-- Piece handling preserves the bookkeeping invariant. -/
theorem hpp_inv (s : Sys) (e : Env) (h : SysInv s) : SysInv (handlePieceProcessing s e) := by
  simp only [handlePieceProcessing]
  repeat' split
  all_goals first
    | exact h
    | exact sysInv_congr s _ rfl rfl rfl h
    | exact sysInv_congr _ _ rfl rfl rfl
        (spawnIfDead_inv _ (sysInv_congr s _ rfl rfl rfl h))

/-- The three thread-bookkeeping fields agree between two states. -/
def ThreadsEq (x y : Sys) : Prop :=
  x.threadSpawned = y.threadSpawned ∧ x.threadAlive = y.threadAlive
    ∧ x.activeTasks = y.activeTasks

/-- Transitivity of thread-field agreement. -/
theorem ThreadsEq.trans {x y z : Sys} (h1 : ThreadsEq x y) (h2 : ThreadsEq y z) :
    ThreadsEq x z :=
  ⟨h1.1.trans h2.1, h1.2.1.trans h2.2.1, h1.2.2.trans h2.2.2⟩

/-- Thread-field agreement transports the bookkeeping invariant. -/
theorem sysInv_of_threadsEq {x s : Sys} (hch : ThreadsEq x s) (h : SysInv s) : SysInv x :=
  sysInv_congr s x hch.1 hch.2.1 hch.2.2 h

/-- The guarded spawn, applied to a state thread-equal to s, changes s's task
count only by a guarded increment from zero. -/
theorem spawnIfDead_count_of_threadsEq (x s : Sys) (hch : ThreadsEq x s) (h : SysInv s) :
    (spawnIfDead x).activeTasks = s.activeTasks
      ∨ (s.activeTasks = 0 ∧ s.threadAlive = false
          ∧ (spawnIfDead x).activeTasks = s.activeTasks + 1) := by
  rcases spawnIfDead_count x (sysInv_of_threadsEq hch h) with hc | ⟨h0, ha, hc⟩
  · left
    rw [hc, hch.2.2]
  · right
    rw [hch.2.2] at h0 hc
    rw [hch.2.1] at ha
    exact ⟨h0, ha, hc⟩

/-- The network check never touches thread bookkeeping. -/
theorem networkTick_threadsEq (s : Sys) (e : Env) : ThreadsEq (networkTick s e) s := by
  unfold networkTick
  split <;> exact ⟨rfl, rfl, rfl⟩

/-- The locked branch never touches thread bookkeeping. -/
theorem lockedTick_threadsEq (s : Sys) (e : Env) : ThreadsEq (lockedTick s e) s := by
  simp only [lockedTick]
  split <;> exact ⟨rfl, rfl, rfl⟩

/-- The solenoid write never touches thread bookkeeping. -/
theorem solenoidTick_threadsEq (s : Sys) (e : Env) : ThreadsEq (solenoidTick s e) s := by
  simp only [solenoidTick]
  repeat' split
  all_goals exact ⟨rfl, rfl, rfl⟩

/-- A controller tick preserves the bookkeeping invariant. -/
theorem rsm_inv (s : Sys) (e : Env) (h : SysInv s) : SysInv (runStateMachine s e) := by
  simp only [runStateMachine]
  repeat' split
  all_goals first
    | exact h
    | exact sysInv_congr s _ rfl rfl rfl h
    | exact sysInv_of_threadsEq
        (ThreadsEq.trans (lockedTick_threadsEq _ _) (networkTick_threadsEq _ _)) h
    | exact sysInv_of_threadsEq
        (ThreadsEq.trans (solenoidTick_threadsEq _ _) (networkTick_threadsEq _ _)) h
    | exact hpp_inv _ e (sysInv_of_threadsEq
        (ThreadsEq.trans (solenoidTick_threadsEq _ _) (networkTick_threadsEq _ _)) h)
    | exact hpp_inv _ e (sysInv_of_threadsEq (networkTick_threadsEq _ _) h)
    | exact sysInv_of_threadsEq (networkTick_threadsEq _ _) h

/-- Piece handling leaves the task count unchanged unless it spawns, and it
spawns only from a count of zero with no thread alive. -/
theorem hpp_count (s : Sys) (e : Env) (h : SysInv s) :
    (handlePieceProcessing s e).activeTasks = s.activeTasks
      ∨ (s.activeTasks = 0 ∧ s.threadAlive = false
          ∧ (handlePieceProcessing s e).activeTasks = s.activeTasks + 1) := by
  simp only [handlePieceProcessing]
  repeat' split
  all_goals first
    | (left; rfl)
    | exact spawnIfDead_count_of_threadsEq _ s ⟨rfl, rfl, rfl⟩ h

/-- Piece handling from a thread-equal state changes the count of tasks of
the base state only by a guarded spawn. -/
theorem hpp_count_generic (x s : Sys) (e : Env) (hch : ThreadsEq x s) (h : SysInv s) :
    (handlePieceProcessing x e).activeTasks = s.activeTasks
      ∨ (s.activeTasks = 0 ∧ s.threadAlive = false
          ∧ (handlePieceProcessing x e).activeTasks = s.activeTasks + 1) := by
  rcases hpp_count x e (sysInv_of_threadsEq hch h) with hc | ⟨h0, ha, hc⟩
  · left
    rw [hc, hch.2.2]
  · right
    rw [hch.2.2] at h0 hc
    rw [hch.2.1] at ha
    exact ⟨h0, ha, hc⟩

/-- A controller tick leaves the task count unchanged unless its piece
handling spawns, which happens only from a count of zero with no thread
alive. -/
theorem rsm_count (s : Sys) (e : Env) (h : SysInv s) :
    (runStateMachine s e).activeTasks = s.activeTasks
      ∨ (s.activeTasks = 0 ∧ s.threadAlive = false
          ∧ (runStateMachine s e).activeTasks = s.activeTasks + 1) := by
  simp only [runStateMachine]
  repeat' split
  all_goals first
    | (left; rfl)
    | (left; exact
        (ThreadsEq.trans (lockedTick_threadsEq _ _) (networkTick_threadsEq _ _)).2.2)
    | (left; exact
        (ThreadsEq.trans (solenoidTick_threadsEq _ _) (networkTick_threadsEq _ _)).2.2)
    | exact hpp_count_generic _ s e
        (ThreadsEq.trans (solenoidTick_threadsEq _ _) (networkTick_threadsEq _ _)) h
    | exact hpp_count_generic _ s e (networkTick_threadsEq _ _) h
    | (left; exact (networkTick_threadsEq _ _).2.2)

/-- Every reachable state satisfies the bookkeeping invariant. -/
theorem inv_reachable (t0 : ℕ) (s : Sys) (h : Reachable t0 s) : SysInv s := by
  induction h with
  | refl =>
    constructor
    · simp [initSys]
    · intro hx
      simp [initSys] at hx
  | tail _ hstep ih =>
    cases hstep with
    | tick e => exact rsm_inv _ e ih
    | taskMut a h1 h2 h3 h4 => exact sysInv_congr _ _ h2 h3 h4 ih
    | taskEnd a h1 h2 h3 h4 =>
      rcases ih with ⟨i1, i2⟩
      constructor
      · rw [h4, h3, i1, h1]
        simp
      · intro hx
        rw [h3] at hx
        cases hx

/-- C1 (confirmed): in every reachable state at most one processing task is
active, and a controller tick (through either spawn site of
_handle_piece_processing) increases the task count only when the count is
zero and no previously spawned processing thread is still alive. -/
theorem single_processing_task_invariant (t0 : ℕ) (s : Sys) (e : Env)
    (h : Reachable t0 s) :
    s.activeTasks ≤ 1
    ∧ ((runStateMachine s e).activeTasks = s.activeTasks + 1 →
        s.activeTasks = 0 ∧ s.threadAlive = false) := by
  have hinv := inv_reachable t0 s h
  constructor
  · rcases hinv with ⟨h1, _⟩
    rw [h1]
    split <;> omega
  · intro hspawn
    rcases rsm_count s e hinv with hc | ⟨h0, ha, _⟩
    · omega
    · exact ⟨h0, ha⟩

/-- Concrete instance of the mutual-exclusion invariant at the initial state
with an idle tick. -/
theorem single_processing_task_invariant_witness :
    (initSys 0).activeTasks ≤ 1
    ∧ ((runStateMachine (initSys 0) ⟨0, false, false, false⟩).activeTasks
          = (initSys 0).activeTasks + 1 →
        (initSys 0).activeTasks = 0 ∧ (initSys 0).threadAlive = false) :=
  single_processing_task_invariant 0 (initSys 0) ⟨0, false, false, false⟩
    Relation.ReflTransGen.refl

/-- C2 counterexample: starting from the initial state (no ejection cycle in
progress), a successful capture followed by a failed analysis
(analyze_image returns None, so process_piece raises and lands in the except
branch) leaves the piece marked processing-complete with the solenoid
unlocked and the ejector never asserted — the piece passes through instead of
being ejected. -/
theorem analysis_failure_passthrough_cex :
    (processPiece (initSys 0) 1000 (some [1]) none).ejectionInProgress = false
    ∧ (processPiece (initSys 0) 1000 (some [1]) none).ejectorOut = false
    ∧ (processPiece (initSys 0) 1000 (some [1]) none).processingComplete = true
    ∧ (processPiece (initSys 0) 1000 (some [1]) none).solenoidLocked = false := by
  exact ⟨rfl, rfl, rfl, rfl⟩

/-- C2 (amended): during process_piece, if image analysis fails or returns no
results (a falsy value), the exception path marks the piece
processing-complete and unlocks the solenoid, passing it through without
ejecting; the fail-safe ejection only fires when analysis returns a truthy
results dict that lacks a predictions key, in which case the ejection cycle
begins and the ejector is asserted. -/
theorem analysis_failure_passthrough (s : Sys) (now : ℕ) (x : ℕ) (xs : List ℕ)
    (h : s.ejectionInProgress = false) :
    ((processPiece s now (some (x :: xs)) none).processingComplete = true
      ∧ (processPiece s now (some (x :: xs)) none).solenoidLocked = false
      ∧ (processPiece s now (some (x :: xs)) none).ejectionInProgress = false
      ∧ (processPiece s now (some (x :: xs)) none).ejectorOut = s.ejectorOut)
    ∧ ((processPiece s now (some (x :: xs))
          (some ResultsDict.missingPredictions)).ejectionInProgress = true
      ∧ (processPiece s now (some (x :: xs))
          (some ResultsDict.missingPredictions)).ejectorOut = true
      ∧ (processPiece s now (some (x :: xs))
          (some ResultsDict.missingPredictions)).ejectionStartTime = now) := by
  constructor
  · simp [processPiece, h]
  · simp [processPiece, hasImperfections]

/-- Concrete instance of the amended analysis-failure behavior. -/
theorem analysis_failure_passthrough_witness :
    ((processPiece (initSys 0) 5 (some (1 :: [])) none).processingComplete = true
      ∧ (processPiece (initSys 0) 5 (some (1 :: [])) none).solenoidLocked = false
      ∧ (processPiece (initSys 0) 5 (some (1 :: [])) none).ejectionInProgress = false
      ∧ (processPiece (initSys 0) 5 (some (1 :: [])) none).ejectorOut = (initSys 0).ejectorOut)
    ∧ ((processPiece (initSys 0) 5 (some (1 :: []))
          (some ResultsDict.missingPredictions)).ejectionInProgress = true
      ∧ (processPiece (initSys 0) 5 (some (1 :: []))
          (some ResultsDict.missingPredictions)).ejectorOut = true
      ∧ (processPiece (initSys 0) 5 (some (1 :: []))
          (some ResultsDict.missingPredictions)).ejectionStartTime = 5) :=
  analysis_failure_passthrough (initSys 0) 5 1 [] rfl

/-! ## Ejection-cycle timing (claim C4) -/

/-- The time stamp of the tick on which the ejector output transitions from
asserted to deasserted, along a tick schedule. -/
def ejectorOffAt (s : Sys) : List Env → Option ℕ
  | [] => none
  | e :: es =>
    if s.ejectorOut && !(runStateMachine s e).ejectorOut then some e.now
    else ejectorOffAt (runStateMachine s e) es

/-- While the ejection cycle runs and the duration has not elapsed, a tick
changes nothing at all. -/
theorem rsm_frozen_ejecting (s : Sys) (e : Env) (h1 : s.ejectionInProgress = true)
    (h2 : e.now < s.ejectionStartTime + EJECTION_TIME_MS) :
    runStateMachine s e = s := by
  unfold runStateMachine
  rw [if_pos h1, if_neg (by omega)]

/-- Once the ejection duration has elapsed, the tick deactivates the ejector,
starts the post-ejection delay, and changes nothing else. -/
theorem rsm_deactivates (s : Sys) (e : Env) (h1 : s.ejectionInProgress = true)
    (h2 : s.ejectionStartTime + EJECTION_TIME_MS ≤ e.now) :
    runStateMachine s e
      = { s with ejectorOut := false, ejectionInProgress := false,
                 postEjectionDelay := true, postEjectionStartTime := e.now } := by
  unfold runStateMachine
  rw [if_pos h1, if_pos h2]

/-- While the post-ejection delay runs and has not elapsed, a tick changes
nothing at all. -/
theorem rsm_frozen_postdelay (s : Sys) (e : Env) (h0 : s.ejectionInProgress = false)
    (h1 : s.postEjectionDelay = true)
    (h2 : e.now < s.postEjectionStartTime + POST_EJECTION_DELAY_MS) :
    runStateMachine s e = s := by
  unfold runStateMachine
  rw [if_neg (by simp [h0]), if_pos h1, if_neg (by omega)]

/-- Along any tick schedule whose gaps are at most one tick-period, whose
first tick falls within the ejection window, and which runs past the
ejection duration, the ejector is deactivated at a tick no earlier than the
full duration and strictly less than one tick-period beyond it. -/
theorem ejector_off_trace (dlt : ℕ) (es : List Env) :
    ∀ s : Sys,
      s.ejectionInProgress = true → s.ejectorOut = true →
      (∀ p ∈ es.head?, p.now < s.ejectionStartTime + EJECTION_TIME_MS + dlt) →
      List.Chain' (fun a b => b.now ≤ a.now + dlt) es →
      (∃ p ∈ es, s.ejectionStartTime + EJECTION_TIME_MS ≤ p.now) →
      ∃ t, ejectorOffAt s es = some t
        ∧ s.ejectionStartTime + EJECTION_TIME_MS ≤ t
        ∧ t < s.ejectionStartTime + EJECTION_TIME_MS + dlt := by
  induction es with
  | nil =>
    intro s _ _ _ _ hex
    simp at hex
  | cons e es ih =>
    intro s h1 h2 hhead hchain hex
    by_cases hnow : s.ejectionStartTime + EJECTION_TIME_MS ≤ e.now
    · refine ⟨e.now, ?_, hnow, hhead e rfl⟩
      unfold ejectorOffAt
      rw [rsm_deactivates s e h1 hnow]
      simp [h2]
    · push_neg at hnow
      have hfr := rsm_frozen_ejecting s e h1 hnow
      unfold ejectorOffAt
      rw [hfr, if_neg (by simp)]
      rcases List.chain'_cons'.mp hchain with ⟨hgap, htail⟩
      rcases hex with ⟨p, hp, hge⟩
      rcases List.mem_cons.mp hp with rfl | hp
      · omega
      · exact ih s h1 h2
          (by
            intro q hq
            have := hgap q hq
            omega)
          htail ⟨p, hp, hge⟩

/-- C4 (confirmed): while the ejection cycle is in progress and the
EJECTION_TIME_MS bound has not elapsed, a tick returns immediately with the
whole state (ejector included) unchanged; the tick that reaches the bound
only deactivates the ejector and starts the post-ejection delay; while the
post-ejection delay has not elapsed a tick also changes nothing; and along
any tick schedule with gaps of at most one tick-period that reaches the
bound, the ejector is deactivated at a time t with
start + EJECTION_TIME_MS ≤ t < start + EJECTION_TIME_MS + period. -/
theorem ejector_timing_bounds :
    (∀ (s : Sys) (e : Env), s.ejectionInProgress = true →
      e.now < s.ejectionStartTime + EJECTION_TIME_MS → runStateMachine s e = s)
    ∧ (∀ (s : Sys) (e : Env), s.ejectionInProgress = true →
      s.ejectionStartTime + EJECTION_TIME_MS ≤ e.now →
      runStateMachine s e
        = { s with ejectorOut := false, ejectionInProgress := false,
                   postEjectionDelay := true, postEjectionStartTime := e.now })
    ∧ (∀ (s : Sys) (e : Env), s.ejectionInProgress = false →
      s.postEjectionDelay = true →
      e.now < s.postEjectionStartTime + POST_EJECTION_DELAY_MS →
      runStateMachine s e = s)
    ∧ (∀ (dlt : ℕ) (es : List Env) (s : Sys),
      s.ejectionInProgress = true → s.ejectorOut = true →
      (∀ p ∈ es.head?, p.now < s.ejectionStartTime + EJECTION_TIME_MS + dlt) →
      List.Chain' (fun a b => b.now ≤ a.now + dlt) es →
      (∃ p ∈ es, s.ejectionStartTime + EJECTION_TIME_MS ≤ p.now) →
      ∃ t, ejectorOffAt s es = some t
        ∧ s.ejectionStartTime + EJECTION_TIME_MS ≤ t
        ∧ t < s.ejectionStartTime + EJECTION_TIME_MS + dlt) :=
  ⟨rsm_frozen_ejecting, rsm_deactivates, rsm_frozen_postdelay,
    fun dlt es => ejector_off_trace dlt es⟩

/-- A state in the middle of an ejection cycle started at time 0. -/
def sEjecting : Sys :=
  { initSys 0 with ejectionInProgress := true, ejectionStartTime := 0, ejectorOut := true }

/-- A state in the middle of the post-ejection delay started at time 0. -/
def sPostDelay : Sys :=
  { initSys 0 with postEjectionDelay := true, postEjectionStartTime := 0 }

/-- An idle tick environment at a given time. -/
def envAt (t : ℕ) : Env :=
  { now := t, sensor1 := false, sensor2 := false, aiDisabled := false }

/-- Concrete instance of the ejector timing bounds: frozen at 100 ms,
deactivated at 600 ms, post-delay frozen at 100 ms, and along the schedule
200/450/600 with period 250 the ejector goes off at t = 600 ∈ [500, 750). -/
theorem ejector_timing_bounds_witness :
    runStateMachine sEjecting (envAt 100) = sEjecting
    ∧ runStateMachine sEjecting (envAt 600)
        = { sEjecting with ejectorOut := false, ejectionInProgress := false,
                           postEjectionDelay := true, postEjectionStartTime := 600 }
    ∧ runStateMachine sPostDelay (envAt 100) = sPostDelay
    ∧ ∃ t, ejectorOffAt sEjecting [envAt 200, envAt 450, envAt 600] = some t
        ∧ sEjecting.ejectionStartTime + EJECTION_TIME_MS ≤ t
        ∧ t < sEjecting.ejectionStartTime + EJECTION_TIME_MS + 250 :=
  ⟨ejector_timing_bounds.1 sEjecting (envAt 100) rfl (by decide),
   ejector_timing_bounds.2.1 sEjecting (envAt 600) rfl (by decide),
   ejector_timing_bounds.2.2.1 sPostDelay (envAt 100) rfl rfl (by decide),
   ejector_timing_bounds.2.2.2 250 [envAt 200, envAt 450, envAt 600] sEjecting
     rfl rfl (by decide) (by norm_num [List.chain'_cons, envAt])
     ⟨envAt 600, by decide, by decide⟩⟩

/-! ## Solenoid debounce (claim C5) and sensor2 timeout (claim C9) -/

/-- The solenoid computation only reads the lock flag and the two edge
times. -/
theorem calc_congr (x y : Sys) (b : Bool) (now : ℕ)
    (hl : x.solenoidLocked = y.solenoidLocked)
    (ha : x.solenoidActivationTime = y.solenoidActivationTime)
    (hd : x.solenoidDeactivationTime = y.solenoidDeactivationTime) :
    calculateSolenoidState x b now = calculateSolenoidState y b now := by
  unfold calculateSolenoidState
  rw [hl, ha, hd]

/-- Characterization of _calculate_solenoid_state when unlocked. -/
theorem calculateSolenoidState_spec (s : Sys) (b : Bool) (now : ℕ)
    (h : s.solenoidLocked = false) :
    calculateSolenoidState s b now = true ↔
      ((b = true ∧ ∃ ta, s.solenoidActivationTime = some ta ∧ ta + START_DELAY_MS ≤ now)
        ∨ (b = false ∧ ∃ td, s.solenoidDeactivationTime = some td ∧ now < td + DELAY_MS)) := by
  unfold calculateSolenoidState
  rw [if_neg (by simp [h])]
  cases b
  · cases hd : s.solenoidDeactivationTime <;> simp [hd]
  · cases ha : s.solenoidActivationTime <;> simp [ha]

/-- The guarded spawn leaves the solenoid output and edge times alone. -/
theorem spawnIfDead_solenoid (s : Sys) :
    (spawnIfDead s).solenoidOut = s.solenoidOut
    ∧ (spawnIfDead s).solenoidActivationTime = s.solenoidActivationTime
    ∧ (spawnIfDead s).solenoidDeactivationTime = s.solenoidDeactivationTime := by
  unfold spawnIfDead
  split <;> exact ⟨rfl, rfl, rfl⟩

/-- Piece handling leaves the solenoid output and edge times alone. -/
theorem hpp_solenoid_fields (s : Sys) (e : Env) :
    (handlePieceProcessing s e).solenoidOut = s.solenoidOut
    ∧ (handlePieceProcessing s e).solenoidActivationTime = s.solenoidActivationTime
    ∧ (handlePieceProcessing s e).solenoidDeactivationTime = s.solenoidDeactivationTime := by
  simp only [handlePieceProcessing]
  repeat' split
  all_goals first
    | exact ⟨rfl, rfl, rfl⟩
    | exact spawnIfDead_solenoid _

/-- The network check touches none of the piece-processing or solenoid
fields. -/
theorem networkTick_pp (s : Sys) (e : Env) :
    (networkTick s e).uiState = s.uiState
    ∧ (networkTick s e).alert = s.alert
    ∧ (networkTick s e).pieceInProgress = s.pieceInProgress
    ∧ (networkTick s e).waitingForSensor2 = s.waitingForSensor2
    ∧ (networkTick s e).sensor2CheckTime = s.sensor2CheckTime
    ∧ (networkTick s e).processingComplete = s.processingComplete
    ∧ (networkTick s e).solenoidLocked = s.solenoidLocked
    ∧ (networkTick s e).lastSensor1 = s.lastSensor1
    ∧ (networkTick s e).solenoidActivationTime = s.solenoidActivationTime
    ∧ (networkTick s e).solenoidDeactivationTime = s.solenoidDeactivationTime := by
  unfold networkTick
  split <;> exact ⟨rfl, rfl, rfl, rfl, rfl, rfl, rfl, rfl, rfl, rfl⟩

/-- The solenoid write touches none of the piece-processing fields. -/
theorem solenoidTick_pp (s : Sys) (e : Env) :
    (solenoidTick s e).uiState = s.uiState
    ∧ (solenoidTick s e).alert = s.alert
    ∧ (solenoidTick s e).pieceInProgress = s.pieceInProgress
    ∧ (solenoidTick s e).waitingForSensor2 = s.waitingForSensor2
    ∧ (solenoidTick s e).sensor2CheckTime = s.sensor2CheckTime
    ∧ (solenoidTick s e).processingComplete = s.processingComplete
    ∧ (solenoidTick s e).solenoidLocked = s.solenoidLocked := by
  simp only [solenoidTick]
  repeat' split
  all_goals exact ⟨rfl, rfl, rfl, rfl, rfl, rfl, rfl⟩

/-- The solenoid output written by the tick is exactly
_calculate_solenoid_state evaluated on the tick's own (post-edge-recording)
state. -/
theorem solenoidTick_out (s : Sys) (e : Env) :
    (solenoidTick s e).solenoidOut
      = calculateSolenoidState (solenoidTick s e) e.sensor1 e.now := by
  simp only [solenoidTick]
  exact calc_congr _ _ _ _ rfl rfl rfl

/-- Under no-ejection, no-post-delay and an unlocked solenoid, the tick
reduces to the solenoid write followed by piece handling. -/
theorem rsm_unlocked_form (s : Sys) (e : Env)
    (h1 : s.ejectionInProgress = false) (h2 : s.postEjectionDelay = false)
    (h3 : s.solenoidLocked = false) :
    runStateMachine s e
      = (if (solenoidTick (networkTick s e) e).processingComplete = true
          then handlePieceProcessing (solenoidTick (networkTick s e) e) e
          else solenoidTick (networkTick s e) e) := by
  have hl : (networkTick s e).solenoidLocked = false :=
    ((networkTick_pp s e).2.2.2.2.2.2.1).trans h3
  have hcond : (!(networkTick s e).solenoidLocked) = true := by simp [hl]
  simp only [runStateMachine]
  rw [if_neg (by simp [h1]), if_neg (by simp [h2]), if_neg (by simp [hl]), if_pos hcond]

/-- C5 (confirmed): on a tick with the solenoid unlocked (and no ejection
cycle or post-delay in progress), the solenoid output written is true iff
sensor1 is high and at least START_DELAY_MS has elapsed since the recorded
rising-edge time, or sensor1 is low and strictly less than the hold delay
DELAY_MS has elapsed since the recorded falling-edge time; in particular,
while sensor1 is high and the recorded rising edge is younger than
START_DELAY_MS the solenoid output is false. -/
theorem solenoid_output_characterization (s : Sys) (e : Env)
    (h1 : s.ejectionInProgress = false) (h2 : s.postEjectionDelay = false)
    (h3 : s.solenoidLocked = false) :
    ((runStateMachine s e).solenoidOut = true ↔
      ((e.sensor1 = true ∧ ∃ ta, (runStateMachine s e).solenoidActivationTime = some ta
          ∧ ta + START_DELAY_MS ≤ e.now)
        ∨ (e.sensor1 = false ∧ ∃ td, (runStateMachine s e).solenoidDeactivationTime = some td
          ∧ e.now < td + DELAY_MS)))
    ∧ (∀ ta, (runStateMachine s e).solenoidActivationTime = some ta → e.sensor1 = true →
        e.now < ta + START_DELAY_MS → (runStateMachine s e).solenoidOut = false) := by
  have hform := rsm_unlocked_form s e h1 h2 h3
  have hXlock : (solenoidTick (networkTick s e) e).solenoidLocked = false :=
    ((solenoidTick_pp (networkTick s e) e).2.2.2.2.2.2).trans
      (((networkTick_pp s e).2.2.2.2.2.2.1).trans h3)
  have hOut : (runStateMachine s e).solenoidOut
      = (solenoidTick (networkTick s e) e).solenoidOut := by
    rw [hform]
    split
    · exact (hpp_solenoid_fields _ e).1
    · rfl
  have hAct : (runStateMachine s e).solenoidActivationTime
      = (solenoidTick (networkTick s e) e).solenoidActivationTime := by
    rw [hform]
    split
    · exact (hpp_solenoid_fields _ e).2.1
    · rfl
  have hDeact : (runStateMachine s e).solenoidDeactivationTime
      = (solenoidTick (networkTick s e) e).solenoidDeactivationTime := by
    rw [hform]
    split
    · exact (hpp_solenoid_fields _ e).2.2
    · rfl
  have hiff : (runStateMachine s e).solenoidOut = true ↔
      ((e.sensor1 = true ∧ ∃ ta, (runStateMachine s e).solenoidActivationTime = some ta
          ∧ ta + START_DELAY_MS ≤ e.now)
        ∨ (e.sensor1 = false ∧ ∃ td, (runStateMachine s e).solenoidDeactivationTime = some td
          ∧ e.now < td + DELAY_MS)) := by
    rw [hOut, hAct, hDeact, solenoidTick_out]
    exact calculateSolenoidState_spec _ e.sensor1 e.now hXlock
  refine ⟨hiff, ?_⟩
  intro ta hta hs1 hlt
  cases hso : (runStateMachine s e).solenoidOut
  · rfl
  · rcases hiff.mp hso with ⟨_, ta2, hta2, hge⟩ | ⟨hs1f, _⟩
    · rw [hta] at hta2
      cases hta2
      omega
    · rw [hs1] at hs1f
      cases hs1f

/-- A state whose sensor1 rising edge was recorded at time 0 with sensor1
still high. -/
def sC5 : Sys :=
  { initSys 0 with lastSensor1 := true, solenoidActivationTime := some 0 }

/-- A tick 100 ms into the high interval. -/
def eC5 : Env :=
  { now := 100, sensor1 := true, sensor2 := false, aiDisabled := false }

/-- Concrete instance of the solenoid debounce: 100 ms after the recorded
rising edge (less than START_DELAY_MS = 300) with sensor1 still high, the
written solenoid output is false. -/
theorem solenoid_output_characterization_witness :
    (runStateMachine sC5 eC5).solenoidOut = false :=
  (solenoid_output_characterization sC5 eC5 rfl rfl rfl).2 0 (by decide) rfl (by decide)

/-- C9 (confirmed): in Normal state with AI enabled, on the tick after
sensor1 releases the controller starts the SENSOR2_WAIT_TIME (0.5 s) timer;
and once the wait has elapsed with sensor2 untriggered, it sets the alert
"No piece fell in slot!", enters error_recovery, leaves processing complete
and the solenoid unlocked, and spawns no processing task for that piece. -/
theorem sensor2_timeout_error_recovery (s : Sys) (e : Env)
    (h1 : s.ejectionInProgress = false) (h2 : s.postEjectionDelay = false)
    (h3 : s.solenoidLocked = false) (h4 : s.uiState = UiState.normal)
    (h5 : s.processingComplete = true) (h6 : s.pieceInProgress = true)
    (he1 : e.sensor1 = false) (hai : e.aiDisabled = false) :
    (s.waitingForSensor2 = false →
      ((runStateMachine s e).waitingForSensor2 = true
        ∧ (runStateMachine s e).sensor2CheckTime = e.now
        ∧ (runStateMachine s e).uiState = UiState.normal
        ∧ (runStateMachine s e).activeTasks = s.activeTasks))
    ∧ (s.waitingForSensor2 = true →
      s.sensor2CheckTime + SENSOR2_WAIT_MS < e.now →
      e.sensor2 = false →
      ((runStateMachine s e).alert = some noPieceAlert
        ∧ (runStateMachine s e).uiState = UiState.errorRecovery
        ∧ (runStateMachine s e).processingComplete = true
        ∧ (runStateMachine s e).solenoidLocked = false
        ∧ (runStateMachine s e).pieceInProgress = false
        ∧ (runStateMachine s e).waitingForSensor2 = false
        ∧ (runStateMachine s e).activeTasks = s.activeTasks)) := by
  have npp := networkTick_pp s e
  have spp := solenoidTick_pp (networkTick s e) e
  have hXui : (solenoidTick (networkTick s e) e).uiState = UiState.normal :=
    (spp.1).trans ((npp.1).trans h4)
  have hXpc : (solenoidTick (networkTick s e) e).processingComplete = true :=
    (spp.2.2.2.2.2.1).trans ((npp.2.2.2.2.2.1).trans h5)
  have hXpip : (solenoidTick (networkTick s e) e).pieceInProgress = true :=
    (spp.2.2.1).trans ((npp.2.2.1).trans h6)
  have hXlock : (solenoidTick (networkTick s e) e).solenoidLocked = false :=
    (spp.2.2.2.2.2.2).trans ((npp.2.2.2.2.2.2.1).trans h3)
  have hXwait : (solenoidTick (networkTick s e) e).waitingForSensor2 = s.waitingForSensor2 :=
    (spp.2.2.2.1).trans (npp.2.2.2.1)
  have hXct : (solenoidTick (networkTick s e) e).sensor2CheckTime = s.sensor2CheckTime :=
    (spp.2.2.2.2.1).trans (npp.2.2.2.2.1)
  have hXtasks : (solenoidTick (networkTick s e) e).activeTasks = s.activeTasks :=
    (ThreadsEq.trans (solenoidTick_threadsEq _ _) (networkTick_threadsEq _ _)).2.2
  have hrun : runStateMachine s e
      = handlePieceProcessing (solenoidTick (networkTick s e) e) e := by
    rw [rsm_unlocked_form s e h1 h2 h3, if_pos hXpc]
  constructor
  · intro hw
    have hXwaitF : (solenoidTick (networkTick s e) e).waitingForSensor2 = false :=
      hXwait.trans hw
    have hlt : ¬ (e.now + SENSOR2_WAIT_MS < e.now) := by omega
    rw [hrun]
    simp only [handlePieceProcessing, hXui]
    simp [he1, hai, hXpip, hXlock, hXwaitF, hlt, hXtasks, hXui]
  · intro hw hto hs2
    have hXwaitT : (solenoidTick (networkTick s e) e).waitingForSensor2 = true :=
      hXwait.trans hw
    have hto2 : (solenoidTick (networkTick s e) e).sensor2CheckTime + SENSOR2_WAIT_MS < e.now := by
      rw [hXct]
      exact hto
    rw [hrun]
    simp only [handlePieceProcessing, hXui]
    simp [he1, hai, hXpip, hXlock, hXwaitT, hto2, hs2, hXtasks]

/-- The state of a piece whose sensor1 released with the sensor2 wait timer
already started at time 0. -/
def sC9 : Sys :=
  { initSys 0 with pieceInProgress := true, waitingForSensor2 := true, sensor2CheckTime := 0 }

/-- A tick 501 ms later with neither sensor triggered and AI enabled. -/
def eC9 : Env :=
  { now := 501, sensor1 := false, sensor2 := false, aiDisabled := false }

/-- Concrete instance of the sensor2-timeout transition 501 ms after the wait
began with sensor2 untriggered. -/
theorem sensor2_timeout_error_recovery_witness :
    (runStateMachine sC9 eC9).alert = some noPieceAlert
    ∧ (runStateMachine sC9 eC9).uiState = UiState.errorRecovery
    ∧ (runStateMachine sC9 eC9).processingComplete = true
    ∧ (runStateMachine sC9 eC9).solenoidLocked = false
    ∧ (runStateMachine sC9 eC9).pieceInProgress = false
    ∧ (runStateMachine sC9 eC9).waitingForSensor2 = false
    ∧ (runStateMachine sC9 eC9).activeTasks = sC9.activeTasks :=
  (sensor2_timeout_error_recovery sC9 eC9 rfl rfl rfl rfl rfl rfl rfl rfl).2
    rfl (by decide) rfl

/-! ## Shutdown and GPIO cleanup (claim C6; src/core/hardware.py, src/main.py) -/

/-- The hardware-affecting operations a cleanup can perform. -/
inductive HwAction where
  | setSolenoid (b : Bool)
  | setEjector (b : Bool)
  | releaseHandle
deriving DecidableEq, Repr

/-- GPIOController.cleanup (src/core/hardware.py lines 68-71): it calls
set_solenoid(False) and then GPIO.cleanup(); no write to the ejection
cylinder occurs. -/
def gpioCleanupActions : List HwAction :=
  [HwAction.setSolenoid false, HwAction.releaseHandle]

/-- InspectionSystem.cleanup (src/main.py lines 465-476): the thread join, UI
cleanup and state save perform no hardware writes; the hardware actions are
exactly those of gpio.cleanup(). -/
def systemCleanupActions : List HwAction :=
  gpioCleanupActions

/-- The three ways InspectionSystem.run can leave its loop: normal stop,
KeyboardInterrupt, or an unexpected exception. -/
inductive RunOutcome where
  | normal
  | keyboardInterrupt
  | fatalError
deriving DecidableEq, Repr

/-- InspectionSystem.run (src/main.py lines 450-463): whatever hardware
actions the loop body performed and however it exits, the finally clause
appends the cleanup actions. -/
def runActions (body : List HwAction) (_o : RunOutcome) : List HwAction :=
  body ++ systemCleanupActions

/-- C6 counterexample: GPIOController.cleanup never writes the ejection
cylinder off — only the flow solenoid is forced off before the GPIO handle
is released, so "both actuators are forced off" is false. -/
theorem cleanup_ejector_not_forced_cex :
    HwAction.setEjector false ∉ gpioCleanupActions
    ∧ HwAction.setSolenoid false ∈ gpioCleanupActions := by
  constructor
  · decide
  · decide

/-- C6 (amended): on shutdown/cleanup — reached on every exit path of run()
(normal return, error, and interrupt) — the flow solenoid is forced off
immediately before the GPIO handle is released; the ejection cylinder is not
explicitly forced off (no ejector write occurs during cleanup). -/
theorem cleanup_solenoid_off_before_release :
    ∀ (body : List HwAction) (o : RunOutcome),
      runActions body o = body ++ [HwAction.setSolenoid false, HwAction.releaseHandle]
      ∧ (∀ b, HwAction.setEjector b ∉ systemCleanupActions) := by
  intro body o
  constructor
  · rfl
  · intro b
    cases b <;> decide

/-! ## Network health monitor history (claim C7; src/core/network.py) -/

/-- One per-service status record (NetworkManager.status[endpoint]). -/
structure ServiceStatus where
  status : String
  lastCheck : Option ℕ
  lastSuccess : Option ℕ
  pingTime : Option String
  errorCount : ℕ
  ip : Option String
deriving DecidableEq, Repr

/-- One connection_history element: endpoint name plus a timestamped copy of
its status. -/
structure HistoryEntry where
  endpointName : String
  snapshot : ServiceStatus
  stamp : ℕ
deriving DecidableEq, Repr

/-- NetworkManager.MAX_HISTORY. -/
def MAX_HISTORY : ℕ := 100

/-- The trim loop of _update_history: pop from the front while the length
exceeds MAX_HISTORY (fuel-indexed, with enough fuel to terminate). -/
def trimAux : ℕ → List HistoryEntry → List HistoryEntry
  | 0, h => h
  | n + 1, h => if MAX_HISTORY < h.length then trimAux n h.tail else h

/-- NetworkManager._update_history (network.py lines 149-161): append a
timestamped snapshot, then evict oldest-first down to the bound. -/
def updateHistory (endpointName : String) (st : ServiceStatus) (now : ℕ)
    (h : List HistoryEntry) : List HistoryEntry :=
  trimAux (h.length + 1) (h ++ [{ endpointName := endpointName, snapshot := st, stamp := now }])

/-- NetworkManager._check_endpoint (network.py lines 123-147) for a
resolvable host: record the ip, then on ping success set Connected /
ping_time / last_success and reset error_count, else set Disconnected and
bump error_count — and return.  The `self._update_history(endpoint)` call on
line 147 stands after the return statements of both branches and is
unreachable, so the connection history is never touched here. -/
def checkEndpoint (pingOk : Bool) (pingMs : Option String) (host : String) (now : ℕ)
    (st : ServiceStatus) : ServiceStatus × Bool :=
  if pingOk then
    ({ st with ip := some host, status := "Connected", pingTime := pingMs,
               lastSuccess := some now, errorCount := 0 }, true)
  else
    ({ st with ip := some host, status := "Disconnected", pingTime := none,
               errorCount := st.errorCount + 1 }, false)

/-- NetworkManager state: three service statuses plus the shared bounded
connection history. -/
structure NetworkManager where
  internetStatus : ServiceStatus
  cameraStatus : ServiceStatus
  aiServerStatus : ServiceStatus
  connectionHistory : List HistoryEntry
deriving DecidableEq, Repr

/-- NetworkManager.check_camera (network.py lines 111-115): _check_endpoint
on the camera service; the health-check callback only notifies the UI. -/
def checkCamera (pingOk : Bool) (pingMs : Option String) (host : String) (now : ℕ)
    (n : NetworkManager) : NetworkManager × Bool :=
  ((fun r => ({ n with cameraStatus := r.1 }, r.2))
    (checkEndpoint pingOk pingMs host now n.cameraStatus))

/-- A service status as initialized in NetworkManager.__init__. -/
def initStatus : ServiceStatus :=
  { status := "Unknown", lastCheck := none, lastSuccess := none, pingTime := none,
    errorCount := 0, ip := none }

/-- NetworkManager.__init__: all statuses Unknown, empty history. -/
def initNetworkManager : NetworkManager :=
  { internetStatus := initStatus, cameraStatus := initStatus,
    aiServerStatus := initStatus, connectionHistory := [] }

/-- C7 (code bug): a camera health check — whether the ping succeeds or
fails — appends nothing to the connection history, because the
_update_history call at network.py line 147 is dead code after the returns;
the claim that every service check appends a timestamped snapshot fails for
camera and ai_server. -/
theorem camera_check_appends_no_history :
    ((checkCamera true (some "1.0ms") "192.168.1.164" 0 initNetworkManager).1).connectionHistory
        = []
    ∧ ((checkCamera false none "192.168.1.164" 0 initNetworkManager).1).connectionHistory
        = [] := by
  constructor
  · rfl
  · rfl

end RaspiRouter
